import Mathlib

/-!
# form3-accountapi-client: the request execution engine

A shallow embedding of `lib/api/client.go` and `lib/api/errors.go`.

* Go's nilable `error` interface is `Option Error`.
* The HTTP transport (`HTTPClient.Do`) is a function from the request and the
  number of the attempt to what that attempt yields.
* Effects (send attempts, backoff sleeps, body reads and `Body.Close()` calls,
  request construction) are recorded in a trace of `Event`s; console output
  (`fmt.Printf`) is not recorded.
* A call ends by returning, by a run-time fault (nil dereference), or by
  `log.Fatalln`, which ends the process with exit status 1.
* `encoding/json`, `net/url` and the `accounts` package are not part of the
  source files; what the client needs from them is described below.
-/

namespace Form3

/-! ## Data model -/

/-- Durations are `time.Duration` values: a number of nanoseconds. -/
abbrev Duration := Nat

/-- One second, `time.Second`. -/
def Second : Duration := 1000000000

/-- Default timeout for client requests (`client.go`, line 17). -/
def timeout : Duration := 10 * Second

/-- API path of the accounts resource (`client.go`, line 20). -/
def ACCOUNTS_API_PATH : String := "/v1/organisation/accounts"

/-- Backoff schedule on how often to retry failed requests (`client.go`, line 23). -/
def backoffSchedule : List Duration := [2 * Second, 3 * Second, 5 * Second]

def StatusOK : Int := 200
def StatusBadRequest : Int := 400
def StatusNotFound : Int := 404
def StatusConflict : Int := 409
def StatusInternalServerError : Int := 500

/-- JSON values, as the decoder of `encoding/json` sees them. -/
inductive Json where
  | null
  | bool (b : Bool)
  | num (literal : String)
  | str (s : String)
  | arr (items : List Json)
  | obj (members : List (String × Json))

/-- The JSON kind named in an `UnmarshalTypeError`. -/
def Json.kind : Json → String
  | .null => "null"
  | .bool _ => "bool"
  | .num _ => "number"
  | .str _ => "string"
  | .arr _ => "array"
  | .obj _ => "object"

/-- Failures of `json.Decoder.Decode`. -/
inductive DecodeError where
  /-- The error `io.EOF`: the body holds no JSON value at all. -/
  | eof
  /-- A `json.SyntaxError`: the body is not JSON. -/
  | malformed
  /-- A `json.UnmarshalTypeError`: a JSON value of this kind does not fit the Go target. -/
  | typeMismatch (kind : String)
  deriving DecidableEq, Repr

/-- Text of a decode error. -/
def DecodeError.text : DecodeError → String
  | .eof => "EOF"
  | .malformed => "invalid character looking for beginning of value"
  | .typeMismatch k => "json: cannot unmarshal " ++ k ++ " into Go value"

/-- A response body, by what the JSON decoder reads from it first. -/
inductive Body where
  /-- No bytes: the decoder reports `io.EOF`. -/
  | empty
  /-- Bytes that do not start a JSON value. -/
  | malformed
  /-- The first JSON value of the stream. -/
  | json (j : Json)

/-- Values of the `error` interface that the client handles (`errors.go`). -/
inductive Error where
  | NotFoundError (ErrorMessage : String)
  | ConflictError (ErrorMessage : String)
  | InternalServerError (ErrorMessage : String)
  | BadRequestError (ErrorMessage : String)
  /-- A value made by `errors.New`. -/
  | errorString (s : String)
  /-- An error returned by `HTTPClient.Do`. -/
  | transport (msg : String)
  /-- An error returned by the JSON decoder. -/
  | decode (e : DecodeError)
  /-- An error returned by `http.NewRequest`. -/
  | request (msg : String)
  /-- An error returned by `json.Marshal`. -/
  | marshal (msg : String)
  deriving DecidableEq, Repr

/-- The `Error()` method (`errors.go`, lines 27-41, and the library errors' own text). -/
def Error.text : Error → String
  | .NotFoundError m => "Not Found Error: " ++ m
  | .ConflictError m => "Conflict Error: " ++ m
  | .InternalServerError m => "Internal Server Error: " ++ m
  | .BadRequestError m => "Bad Request Error: " ++ m
  | .errorString s => s
  | .transport msg => msg
  | .decode e => e.text
  | .request msg => msg
  | .marshal msg => msg

/-- The four typed variants of `errors.go`. -/
def Error.isTyped : Error → Bool
  | .NotFoundError _ => true
  | .ConflictError _ => true
  | .InternalServerError _ => true
  | .BadRequestError _ => true
  | _ => false

/-- An `http.Request`, as far as the client touches it. -/
structure Request where
  Method : String
  URL : String
  Header : List (String × String)
  Body : Option String
  deriving DecidableEq, Repr

/-- The method `Header.Set`: replace the values of a key. -/
def Request.setHeader (req : Request) (key value : String) : Request :=
  { req with Header := (req.Header.filter (fun kv => kv.1 != key)) ++ [(key, value)] }

/-- An `http.Response`, as far as the client reads it. -/
structure Response where
  StatusCode : Int
  Body : Body

/-- What one call of `HTTPClient.Do` yields: a response and no error, or an
error, possibly together with a response (after a failed redirect check; the
body of such a response is already closed when `Do` returns). -/
inductive DoResult where
  | ok (res : Response)
  | fail (err : String) (res : Option Response)

/-- The `http.Client`: its timeout, and what the n-th attempt (from 0) to
send a request yields. -/
structure HTTPClient where
  Timeout : Duration
  Do : Request → Nat → DoResult

/-- The client (`client.go`, line 31). -/
structure Client where
  HostURL : String
  HTTPClient : HTTPClient

/-- Constructor of clients (`client.go`, line 36); the transport is what the
platform provides. -/
def NewClient (hostURL : String) (Do : Request → Nat → DoResult) : Client :=
  { HostURL := hostURL, HTTPClient := { Timeout := timeout, Do := Do } }

/-- Observable effects of a call. -/
inductive Event where
  /-- The call `http.NewRequest` for this URL. -/
  | newRequest (url : String)
  /-- The call `json.Marshal`. -/
  | marshal
  /-- The n-th call of `HTTPClient.Do`. -/
  | send (attempt : Nat)
  /-- The call `time.Sleep`. -/
  | sleep (d : Duration)
  /-- The JSON decoder reads the body of the response of this attempt. -/
  | decode (attempt : Nat)
  /-- The call `Body.Close()` that `sendRequest` makes on the response of this attempt. -/
  | close (attempt : Nat)
  /-- The close that `HTTPClient.Do` has made itself on the body of a response
  it returns together with an error (the documented contract of `Do`). -/
  | closedByDo (attempt : Nat)
  deriving DecidableEq, Repr

/-- How a call ends. -/
inductive Outcome (α : Type) where
  /-- The call returns to its caller. -/
  | returned (a : α)
  /-- A run-time fault (nil pointer dereference). -/
  | fault
  /-- The process ends with this status (`log.Fatalln` calls `os.Exit(1)`). -/
  | exit (status : Nat)
  deriving DecidableEq, Repr

/-! ## Error classifier -/

/-- Error type factory (`client.go`, lines 157-172). -/
def getErrorType (code : Int) : Error :=
  if code = StatusBadRequest then .BadRequestError ""
  else if code = StatusNotFound then .NotFoundError ""
  else if code = StatusConflict then .ConflictError ""
  else if code ≥ StatusInternalServerError then .InternalServerError ""
  else .errorString "Unknown code"

/-! ## JSON decoding into the error value

`json.NewDecoder(res.Body).Decode(&data)` with `data` an interface value that
holds a pointer to a struct.  The decoder follows the interface to the struct.
* A JSON `null` sets the interface itself to nil and reports no error.
* A JSON object is stored member by member: a member whose key matches the tag
  `error_message` under case folding is stored into `ErrorMessage` (a string is
  stored, `null` leaves the field, anything else is a type error, of which the
  first one is reported after the whole object has been read); other members
  are skipped.  The struct behind `errors.New` has no exported field, so every
  member is skipped.
* Any other JSON value is a type error.
-/

/-- Case folding of a rune of a key, as far as it can reach an ASCII letter:
lower case to upper case, and the two runes that fold to `S` and `K`. -/
def foldRune (c : Char) : Char :=
  if 97 ≤ c.toNat ∧ c.toNat ≤ 122 then Char.ofNat (c.toNat - 32)
  else if c.toNat = 0x17F then 'S'
  else if c.toNat = 0x212A then 'K'
  else c

/-- A key of a JSON object names the struct field with this tag. -/
def matchesField (tag key : String) : Bool :=
  key.toList.map foldRune == tag.toList.map foldRune

/-- Store one member of a JSON object into a struct whose only exported field
is `ErrorMessage`; the state is the field and the first error saved. -/
def storeMember (st : String × Option DecodeError) (kv : String × Json) :
    String × Option DecodeError :=
  if matchesField "error_message" kv.1 then
    match kv.2 with
    | .str s => (s, st.2)
    | .null => st
    | j => (st.1, match st.2 with
                  | some e => some e
                  | none => some (.typeMismatch j.kind))
  else st

/-- Decode a JSON object into a struct whose only exported field is `ErrorMessage`. -/
def decodeMessage (members : List (String × Json)) (msg : String) :
    Except DecodeError String :=
  match members.foldl storeMember (msg, none) with
  | (m, none) => .ok m
  | (_, some e) => .error e

/-- Decode a JSON object into the struct behind an error value. -/
def decodeStruct (data : Error) (members : List (String × Json)) :
    Except DecodeError Error :=
  match data with
  | .NotFoundError m => (decodeMessage members m).map .NotFoundError
  | .ConflictError m => (decodeMessage members m).map .ConflictError
  | .InternalServerError m => (decodeMessage members m).map .InternalServerError
  | .BadRequestError m => (decodeMessage members m).map .BadRequestError
  | e => .ok e

/-- The call `json.NewDecoder(body).Decode(&data)`: the new value of `data`
(nil after a JSON `null`), or the decode error. -/
def decodeError (data : Error) (body : Body) : Except DecodeError (Option Error) :=
  match body with
  | .empty => .error .eof
  | .malformed => .error .malformed
  | .json .null => .ok none
  | .json (.obj members) => (decodeStruct data members).map some
  | .json j => .error (.typeMismatch j.kind)

/-- The call `json.NewDecoder(body).Decode(&v)` with `v` holding a pointer to
a target of type `τ`; `dec` is the decoder of `τ` for JSON values other than
`null`, which leaves the target as it is.  What a failed decode leaves in the
target is not described: the callers drop it. -/
def decodeTarget {τ : Type} (dec : Json → τ → Except DecodeError τ) (body : Body) (t : τ) :
    Except DecodeError τ :=
  match body with
  | .empty => .error .eof
  | .malformed => .error .malformed
  | .json .null => .ok t
  | .json j => dec j t

/-! ## Request executor -/

/-- The variables `res` and `err` of `sendRequest`, with the trace so far.
A response is kept with the number of the attempt that obtained it. -/
structure LoopState where
  res : Option (Nat × Response)
  err : Option Error
  trace : List Event

/-- The `Body.Close()` of line 126, made only when the failed attempt came
with a response. -/
def closeStray (i : Nat) : Option Response → List Event
  | some _ => [.close i]
  | none => []

/-- The close that `HTTPClient.Do` made before it returned a response
together with an error. -/
def closedByDo (i : Nat) : Option Response → List Event
  | some _ => [.closedByDo i]
  | none => []

/-- The retry loop (`client.go`, lines 116-129); `i` numbers the attempt. -/
def retryLoop (Do : Nat → DoResult) : List Duration → Nat → LoopState → LoopState
  | [], _, st => st
  | backoff :: rest, i, st =>
    match Do i with
    | .ok res =>
      -- err == nil: break
      { res := some (i, res), err := none, trace := st.trace ++ [.send i] }
    | .fail e res =>
      retryLoop Do rest (i + 1)
        { res := res.map (fun r => (i, r)), err := some (.transport e),
          trace := st.trace ++ [.send i] ++ closedByDo i res ++ closeStray i res ++
            [.sleep backoff] }

/-- Result of `sendRequest`: how it ends, the output target, the trace. -/
structure SendResult (τ : Type) where
  outcome : Outcome (Option Error)
  target : Option τ
  trace : List Event

/-- The function `sendRequest` (`client.go`, lines 108-155), over the backoff
schedule in force.  `v` is the output target, `none` for a nil `v`. -/
def sendRequest {τ : Type} (schedule : List Duration) (c : Client)
    (dec : Json → τ → Except DecodeError τ) (req : Request) (v : Option τ) : SendResult τ :=
  let req := (req.setHeader "Content-Type" "application/vnd.api+json").setHeader
    "Accept" "application/vnd.api+json"
  let st := retryLoop (c.HTTPClient.Do req) schedule 0 { res := none, err := none, trace := [] }
  let err := st.err
  match err with
  | some e =>
    -- All retries failed
    { outcome := .returned (some e), target := v, trace := st.trace }
  | none =>
    match st.res with
    | none =>
      -- `defer res.Body.Close()` on a nil `res`
      { outcome := .fault, target := v, trace := st.trace }
    | some (i, res) =>
      if res.StatusCode < StatusOK ∨ res.StatusCode ≥ StatusBadRequest then
        let data := getErrorType res.StatusCode
        match decodeError data res.Body with
        | .ok data =>
          { outcome := .returned data, target := v,
            trace := st.trace ++ [.decode i, .close i] }
        | .error _ =>
          -- line 145: `return err` names the `err` of line 112, the `err` of
          -- the `if` statement being out of scope here
          { outcome := .returned err, target := v,
            trace := st.trace ++ [.decode i, .close i] }
      else
        match v with
        | some t =>
          match decodeTarget dec res.Body t with
          | .error e =>
            { outcome := .returned (some (.decode e)), target := some t,
              trace := st.trace ++ [.decode i, .close i] }
          | .ok t =>
            { outcome := .returned none, target := some t,
              trace := st.trace ++ [.decode i, .close i] }
        | none =>
          { outcome := .returned none, target := none, trace := st.trace ++ [.close i] }

/-! ## Operations

The `accounts` package and the libraries are outside the source files: the
type of account data is a parameter, the envelopes carry the one field the
client uses, and `Lib` gives what the library calls yield. -/

/-- The envelope `accounts.AccountDataRequest`, by the field the client sets. -/
structure AccountDataRequest (Acc : Type) where
  Data : Option Acc

/-- The envelope `accounts.AccountDataResponse`, by the field the client reads. -/
structure AccountDataResponse (Acc : Type) where
  Data : Option Acc

/-- What the library calls of the operations yield. -/
structure Lib (Acc : Type) where
  /-- The error of `url.Parse` inside `http.NewRequest`, if the URL does not parse. -/
  urlError : String → Option String
  /-- The call `json.Marshal` on the request envelope. -/
  Marshal : AccountDataRequest Acc → Except String String
  /-- The JSON decoder on the response envelope. -/
  Unmarshal : Json → AccountDataResponse Acc → Except DecodeError (AccountDataResponse Acc)

/-- The call `http.NewRequest` with one of the methods GET, POST, DELETE: it
fails exactly when the URL does not parse. -/
def NewRequest {Acc : Type} (lib : Lib Acc) (method url : String) (body : Option String) :
    Except Error Request :=
  match lib.urlError url with
  | some msg => .error (.request msg)
  | none => .ok { Method := method, URL := url, Header := [], Body := body }

/-- Result of an operation: how it ends, and the trace. -/
structure Run (α : Type) where
  outcome : Outcome α
  trace : List Event

/-- Fetch: get a single account using the account ID (`client.go`, lines 46-62). -/
def Fetch {Acc : Type} (lib : Lib Acc) (schedule : List Duration) (c : Client) (id : String) :
    Run (Option Acc × Option Error) :=
  if id = "" then
    { outcome := .returned (none, some (.errorString "Invalid account id")), trace := [] }
  else
    let url := c.HostURL ++ ACCOUNTS_API_PATH ++ "/" ++ id
    match NewRequest lib "GET" url none with
    | .error err => { outcome := .returned (none, some err), trace := [.newRequest url] }
    | .ok req =>
      let res : AccountDataResponse Acc := { Data := none }
      let r := sendRequest schedule c lib.Unmarshal req (some res)
      match r.outcome with
      | .returned (some err) =>
        { outcome := .returned (none, some err), trace := .newRequest url :: r.trace }
      | .returned none =>
        { outcome := .returned ((r.target.getD res).Data, none),
          trace := .newRequest url :: r.trace }
      | .fault => { outcome := .fault, trace := .newRequest url :: r.trace }
      | .exit n => { outcome := .exit n, trace := .newRequest url :: r.trace }

/-- Create: register an existing bank account or create a new one
(`client.go`, lines 65-89). -/
def Create {Acc : Type} (lib : Lib Acc) (schedule : List Duration) (c : Client)
    (accountData : Option Acc) : Run (Option Acc × Option Error) :=
  let req : AccountDataRequest Acc := { Data := accountData }
  match lib.Marshal req with
  | .error _ =>
    -- log.Fatalln(err)
    { outcome := .exit 1, trace := [.marshal] }
  | .ok requestBody =>
    let url := c.HostURL ++ ACCOUNTS_API_PATH
    match NewRequest lib "POST" url (some requestBody) with
    | .error _ =>
      -- log.Fatalln(err)
      { outcome := .exit 1, trace := [.marshal, .newRequest url] }
    | .ok createReq =>
      let createResp : AccountDataResponse Acc := { Data := none }
      let r := sendRequest schedule c lib.Unmarshal createReq (some createResp)
      match r.outcome with
      | .returned (some err) =>
        { outcome := .returned (none, some err),
          trace := .marshal :: .newRequest url :: r.trace }
      | .returned none =>
        { outcome := .returned ((r.target.getD createResp).Data, none),
          trace := .marshal :: .newRequest url :: r.trace }
      | .fault => { outcome := .fault, trace := .marshal :: .newRequest url :: r.trace }
      | .exit n => { outcome := .exit n, trace := .marshal :: .newRequest url :: r.trace }

/-- Delete: delete an account (`client.go`, lines 92-104). -/
def Delete {Acc : Type} (lib : Lib Acc) (schedule : List Duration) (c : Client)
    (accountId : String) (version : Int) : Run (Option Error) :=
  let url := c.HostURL ++ ACCOUNTS_API_PATH ++ "/" ++ accountId ++ "?version=" ++ toString version
  match NewRequest lib "DELETE" url none with
  | .error _ =>
    -- log.Fatalln(err)
    { outcome := .exit 1, trace := [.newRequest url] }
  | .ok deleteReq =>
    let r := sendRequest schedule c lib.Unmarshal deleteReq (none : Option (AccountDataResponse Acc))
    match r.outcome with
    | .returned (some err) => { outcome := .returned (some err), trace := .newRequest url :: r.trace }
    | .returned none => { outcome := .returned none, trace := .newRequest url :: r.trace }
    | .fault => { outcome := .fault, trace := .newRequest url :: r.trace }
    | .exit n => { outcome := .exit n, trace := .newRequest url :: r.trace }

/-! ## Vocabulary of the statements -/

/-- The attempt failed at the transport level. -/
def DoResult.failed : DoResult → Bool
  | .ok _ => false
  | .fail _ _ => true

/-- The response an attempt came with, if any. -/
def DoResult.response : DoResult → Option Response
  | .ok r => some r
  | .fail _ r => r

/-- The error an attempt came with, if any. -/
def DoResult.error : DoResult → Option Error
  | .ok _ => none
  | .fail e _ => some (.transport e)

/-- The request as `sendRequest` hands it to the transport: with both headers set. -/
def withHeaders (req : Request) : Request :=
  (req.setHeader "Content-Type" "application/vnd.api+json").setHeader
    "Accept" "application/vnd.api+json"

/-- The transport answers with response `r` at attempt `k` (from 0), after `k`
attempts that failed at the transport level. -/
def Obtains (Do : Nat → DoResult) (k : Nat) (r : Response) : Prop :=
  (∀ j, j < k → (Do j).failed = true) ∧ Do k = .ok r

/-- A call of `sendRequest` obtains the response `r` at attempt `k`: the
schedule has an entry for that attempt, and the transport answers there. -/
def SendObtains (schedule : List Duration) (c : Client) (req : Request) (k : Nat)
    (r : Response) : Prop :=
  k < schedule.length ∧ Obtains (c.HTTPClient.Do (withHeaders req)) k r

/-- The events of failed attempts numbered from `i`, one per schedule entry:
the send, the two closes of a response that came with the error (the one made
by `Do`, then the one of line 126), the wait. -/
def failedTrace (Do : Nat → DoResult) : List Duration → Nat → List Event
  | [], _ => []
  | backoff :: rest, i =>
    [.send i] ++ closedByDo i (Do i).response ++ closeStray i (Do i).response ++
      [.sleep backoff] ++ failedTrace Do rest (i + 1)

/-- The sends and waits of a trace, in order. -/
def sendsAndSleeps (tr : List Event) : List Event :=
  tr.filter (fun e => match e with
    | .send _ => true
    | .sleep _ => true
    | _ => false)

/-- One send and one wait per schedule entry, attempts numbered from `i`. -/
def attemptsAndWaits : List Duration → Nat → List Event
  | [], _ => []
  | backoff :: rest, i => .send i :: .sleep backoff :: attemptsAndWaits rest (i + 1)

/-- The number of send attempts in a trace. -/
def sendCount (tr : List Event) : Nat :=
  (tr.filter (fun e => match e with
    | .send _ => true
    | _ => false)).length

/-- The waits of a trace, in order. -/
def sleeps (tr : List Event) : List Duration :=
  tr.filterMap (fun e => match e with
    | .sleep d => some d
    | _ => none)

/-- What `sendRequest` does with the response `r` of attempt `i` once the
retry loop has ended without error (lines 137-154). -/
def respond {τ : Type} (dec : Json → τ → Except DecodeError τ) (i : Nat) (r : Response)
    (v : Option τ) : SendResult τ :=
  if r.StatusCode < StatusOK ∨ r.StatusCode ≥ StatusBadRequest then
    match decodeError (getErrorType r.StatusCode) r.Body with
    | .ok data => { outcome := .returned data, target := v, trace := [.decode i, .close i] }
    | .error _ => { outcome := .returned none, target := v, trace := [.decode i, .close i] }
  else
    match v with
    | some t =>
      match decodeTarget dec r.Body t with
      | .error e =>
        { outcome := .returned (some (.decode e)), target := some t,
          trace := [.decode i, .close i] }
      | .ok t => { outcome := .returned none, target := some t, trace := [.decode i, .close i] }
    | none => { outcome := .returned none, target := none, trace := [.close i] }

/-- The number of times the body of the response of attempt `i` is closed:
by `sendRequest`, and by `Do` before it returned. -/
def closes (tr : List Event) (i : Nat) : Nat :=
  tr.count (.close i) + tr.count (.closedByDo i)

/-- A body is an error body with message `m`: a JSON object that the decoder
stores into a struct with the one field `ErrorMessage`, leaving `m` there. -/
def IsErrorBody (body : Body) (m : String) : Prop :=
  ∃ members, body = .json (.obj members) ∧ decodeMessage members "" = .ok m

/-- The text `m` occurs in the text `s`. -/
def Contains (s m : String) : Prop := m.toList <:+: s.toList

/-! ## Sample surroundings, for the concrete cases -/

/-- An account payload with the two fields the description asks for. -/
structure Account where
  ID : String
  Version : Int

/-- A library in which a URL parses unless it holds an ASCII control
character (the first check of `url.Parse`), marshalling succeeds, and the
response envelope accepts every JSON object. -/
def sampleLib : Lib Account :=
  { urlError := fun u =>
      if u.toList.any (fun ch => ch.toNat < 32 ∨ ch.toNat = 127) then
        some "net/url: invalid control character in URL"
      else none,
    Marshal := fun _ => .ok "data",
    Unmarshal := fun j t =>
      match j with
      | .obj _ => .ok t
      | _ => .error (.typeMismatch j.kind) }

/-- A transport that answers every attempt with the same response. -/
def answering (r : Response) : Request → Nat → DoResult :=
  fun _ _ => .ok r

/-- A transport that refuses the first `n` attempts and then answers. -/
def refusedThen (n : Nat) (r : Response) : Request → Nat → DoResult :=
  fun _ i => if i < n then .fail "connection refused" none else .ok r

/-- A transport whose first attempt fails a redirect check and comes with the
response `r0`, and whose later attempts answer `r`. -/
def strayThen (r0 r : Response) : Request → Nat → DoResult :=
  fun _ i => if i < 1 then .fail "redirect refused" (some r0) else .ok r

/-- A transport that refuses every attempt. -/
def refusing : Request → Nat → DoResult :=
  fun _ _ => .fail "connection refused" none

/-- An error body with the given message. -/
def errorBody (m : String) : Body :=
  .json (.obj [("error_message", .str m)])

/-! ## The retry loop -/

theorem retryLoop_obtains (Do : Nat → DoResult) (r : Response) :
    ∀ (schedule : List Duration) (k i : Nat) (st : LoopState),
      k < schedule.length → (∀ j, j < k → (Do (i + j)).failed = true) → Do (i + k) = .ok r →
      retryLoop Do schedule i st =
        { res := some (i + k, r), err := none,
          trace := st.trace ++ failedTrace Do (schedule.take k) i ++ [.send (i + k)] } := by
  intro schedule
  induction schedule with
  | nil => intro k i st hk; simp at hk
  | cons b rest ih =>
    intro k i st hk hfail hok
    cases k with
    | zero =>
      have h0 : Do i = .ok r := by simpa using hok
      simp [retryLoop, h0, failedTrace]
    | succ k =>
      have hi : (Do i).failed = true := by simpa using hfail 0 (Nat.succ_pos k)
      cases hdo : Do i with
      | ok r0 => simp [hdo, DoResult.failed] at hi
      | fail e p =>
        have hk2 : k < rest.length := by simpa using hk
        have hf2 : ∀ j, j < k → (Do (i + 1 + j)).failed = true := by
          intro j hj
          have := hfail (j + 1) (Nat.succ_lt_succ hj)
          rwa [show i + (j + 1) = i + 1 + j by omega] at this
        have hok2 : Do (i + 1 + k) = .ok r := by
          rwa [show i + (k + 1) = i + 1 + k by omega] at hok
        rw [retryLoop, hdo]
        simp only []
        rw [ih k (i + 1) _ hk2 hf2 hok2]
        simp [failedTrace, hdo, DoResult.response, show i + 1 + k = i + (k + 1) by omega,
          List.append_assoc]

theorem retryLoop_allFail (Do : Nat → DoResult) :
    ∀ (schedule : List Duration) (i : Nat) (st : LoopState),
      (∀ j, j < schedule.length → (Do (i + j)).failed = true) →
      (retryLoop Do schedule i st).trace = st.trace ++ failedTrace Do schedule i ∧
      (retryLoop Do schedule i st).err =
        (if schedule = [] then st.err else (Do (i + (schedule.length - 1))).error) := by
  intro schedule
  induction schedule with
  | nil => intro i st _; simp [retryLoop, failedTrace]
  | cons b rest ih =>
    intro i st hfail
    have hi : (Do i).failed = true := by simpa using hfail 0 (by simp)
    cases hdo : Do i with
    | ok r0 => simp [hdo, DoResult.failed] at hi
    | fail e p =>
      have hf2 : ∀ j, j < rest.length → (Do (i + 1 + j)).failed = true := by
        intro j hj
        have := hfail (j + 1) (by simpa using hj)
        rwa [show i + (j + 1) = i + 1 + j by omega] at this
      rw [retryLoop, hdo]
      simp only []
      obtain ⟨h1, h2⟩ := ih (i + 1) _ hf2
      refine ⟨?_, ?_⟩
      · rw [h1]; simp [failedTrace, hdo, DoResult.response, List.append_assoc]
      · rw [h2]
        cases rest with
        | nil => simp [hdo, DoResult.error]
        | cons b2 rest2 =>
          simp
          rw [show i + 1 + rest2.length = i + (rest2.length + 1) by omega]

/-! ## The executor after the loop -/

theorem withHeaders_def (req : Request) :
    (req.setHeader "Content-Type" "application/vnd.api+json").setHeader
      "Accept" "application/vnd.api+json" = withHeaders req := rfl

theorem sendRequest_obtains {τ : Type} (schedule : List Duration) (c : Client)
    (dec : Json → τ → Except DecodeError τ) (req : Request) (v : Option τ) (k : Nat)
    (r : Response) (h : SendObtains schedule c req k r) :
    sendRequest schedule c dec req v =
      { outcome := (respond dec k r v).outcome, target := (respond dec k r v).target,
        trace := failedTrace (c.HTTPClient.Do (withHeaders req)) (schedule.take k) 0 ++
          [.send k] ++ (respond dec k r v).trace } := by
  obtain ⟨hk, hfail, hok⟩ := h
  have hloop := retryLoop_obtains (c.HTTPClient.Do (withHeaders req)) r schedule k 0
    { res := none, err := none, trace := [] } hk (by simpa using hfail) (by simpa using hok)
  simp only [Nat.zero_add, List.nil_append] at hloop
  unfold sendRequest
  simp only []
  rw [withHeaders_def req, hloop]
  simp only [respond]
  by_cases hs : r.StatusCode < StatusOK ∨ r.StatusCode ≥ StatusBadRequest
  · simp only [hs, if_true]
    cases decodeError (getErrorType r.StatusCode) r.Body <;> simp
  · simp only [hs, if_false]
    cases v with
    | none => simp
    | some t => cases hd : decodeTarget dec r.Body t <;> simp [hd]

theorem sendRequest_allFail {τ : Type} (schedule : List Duration) (c : Client)
    (dec : Json → τ → Except DecodeError τ) (req : Request) (v : Option τ)
    (hne : schedule ≠ [])
    (hfail : ∀ j, j < schedule.length → (c.HTTPClient.Do (withHeaders req) j).failed = true) :
    sendRequest schedule c dec req v =
      { outcome := .returned (c.HTTPClient.Do (withHeaders req) (schedule.length - 1)).error,
        target := v,
        trace := failedTrace (c.HTTPClient.Do (withHeaders req)) schedule 0 } := by
  obtain ⟨h1, h2⟩ := retryLoop_allFail (c.HTTPClient.Do (withHeaders req)) schedule 0
    { res := none, err := none, trace := [] } (by simpa using hfail)
  simp only [Nat.zero_add, List.nil_append, hne, if_false] at h1 h2
  have hlast : (c.HTTPClient.Do (withHeaders req) (schedule.length - 1)).failed = true :=
    hfail _ (by cases schedule with
      | nil => exact absurd rfl hne
      | cons b rest => simp)
  cases hdo : c.HTTPClient.Do (withHeaders req) (schedule.length - 1) with
  | ok r0 => simp [hdo, DoResult.failed] at hlast
  | fail e p =>
    rw [hdo] at h2
    unfold sendRequest
    simp only [DoResult.error] at h2 ⊢
    rw [withHeaders_def req]
    simp only [h2, h1]

/-! ## The classifier, case by case -/

theorem getErrorType_badRequest : getErrorType 400 = .BadRequestError "" := rfl

theorem getErrorType_notFound : getErrorType 404 = .NotFoundError "" := rfl

theorem getErrorType_conflict : getErrorType 409 = .ConflictError "" := rfl

theorem getErrorType_serverError (c : Int) (h : c ≥ 500) :
    getErrorType c = .InternalServerError "" := by
  unfold getErrorType StatusBadRequest StatusNotFound StatusConflict StatusInternalServerError
  have h1 : c ≠ 400 := by omega
  have h2 : c ≠ 404 := by omega
  have h3 : c ≠ 409 := by omega
  simp [h1, h2, h3, h]

theorem getErrorType_unknown (c : Int) (h1 : c ≠ 400) (h2 : c ≠ 404) (h3 : c ≠ 409)
    (h4 : c < 500) : getErrorType c = .errorString "Unknown code" := by
  unfold getErrorType StatusBadRequest StatusNotFound StatusConflict StatusInternalServerError
  have h5 : ¬ c ≥ 500 := by omega
  simp [h1, h2, h3, h5]

/-! ## Error bodies -/

theorem isErrorBody_errorBody (m : String) : IsErrorBody (errorBody m) m :=
  ⟨[("error_message", .str m)], rfl, rfl⟩

theorem contains_append (p m : String) : Contains (p ++ m) m := by
  unfold Contains
  rw [String.toList, String.toList, String.data_append]
  exact List.suffix_append _ _ |>.isInfix

theorem decodeError_typed (code : Int) (body : Body) (m : String) (hb : IsErrorBody body m) :
    decodeError (getErrorType code) body =
      .ok (some (match getErrorType code with
        | .NotFoundError _ => .NotFoundError m
        | .ConflictError _ => .ConflictError m
        | .InternalServerError _ => .InternalServerError m
        | .BadRequestError _ => .BadRequestError m
        | e => e)) := by
  obtain ⟨members, rfl, hm⟩ := hb
  unfold getErrorType
  split_ifs <;> simp [decodeError, decodeStruct, hm, Except.map]

/-! ## The error branch -/

/-- Under a status outside [200,400) the outcome is what decoding the body
into the classified value leaves, and nil when that decoding fails; neither
the target nor its decoder plays a part. -/
theorem sendRequest_errorStatus {τ : Type} (schedule : List Duration) (c : Client)
    (dec : Json → τ → Except DecodeError τ) (req : Request) (v : Option τ) (k : Nat)
    (r : Response) (h : SendObtains schedule c req k r)
    (hs : r.StatusCode < 200 ∨ r.StatusCode ≥ 400) :
    (sendRequest schedule c dec req v).outcome =
        .returned (match decodeError (getErrorType r.StatusCode) r.Body with
          | .ok data => data
          | .error _ => none) ∧
      (sendRequest schedule c dec req v).target = v ∧
      (sendRequest schedule c dec req v).trace =
        failedTrace (c.HTTPClient.Do (withHeaders req)) (schedule.take k) 0 ++
          [.send k, .decode k, .close k] := by
  rw [sendRequest_obtains schedule c dec req v k r h]
  have hs2 : r.StatusCode < StatusOK ∨ r.StatusCode ≥ StatusBadRequest := hs
  simp only [respond, hs2, if_true]
  cases decodeError (getErrorType r.StatusCode) r.Body <;> simp

theorem Fetch_built {Acc : Type} (lib : Lib Acc) (schedule : List Duration) (c : Client)
    (id : String) (req : Request) (hid : id ≠ "")
    (hreq : NewRequest lib "GET" (c.HostURL ++ ACCOUNTS_API_PATH ++ "/" ++ id) none = .ok req)
    (e : Error)
    (hs : (sendRequest schedule c lib.Unmarshal req
      (some ({ Data := none } : AccountDataResponse Acc))).outcome = .returned (some e)) :
    (Fetch lib schedule c id).outcome = .returned (none, some e) := by
  unfold Fetch
  simp only [hid, if_false, hreq, hs]

theorem Create_built {Acc : Type} (lib : Lib Acc) (schedule : List Duration) (c : Client)
    (accountData : Option Acc) (body : String) (req : Request)
    (hm : lib.Marshal { Data := accountData } = .ok body)
    (hreq : NewRequest lib "POST" (c.HostURL ++ ACCOUNTS_API_PATH) (some body) = .ok req)
    (e : Error)
    (hs : (sendRequest schedule c lib.Unmarshal req
      (some ({ Data := none } : AccountDataResponse Acc))).outcome = .returned (some e)) :
    (Create lib schedule c accountData).outcome = .returned (none, some e) := by
  unfold Create
  simp only [hm, hreq, hs]

theorem Delete_built {Acc : Type} (lib : Lib Acc) (schedule : List Duration) (c : Client)
    (accountId : String) (version : Int) (req : Request)
    (hreq : NewRequest lib "DELETE"
      (c.HostURL ++ ACCOUNTS_API_PATH ++ "/" ++ accountId ++ "?version=" ++ toString version)
      none = .ok req)
    (e : Option Error)
    (hs : (sendRequest schedule c lib.Unmarshal req
      (none : Option (AccountDataResponse Acc))).outcome = .returned e) :
    (Delete lib schedule c accountId version).outcome = .returned e := by
  unfold Delete
  simp only [hreq, hs]
  cases e <;> rfl

/-! ## Traces of failed attempts -/

theorem closeStray_cases (i : Nat) (o : Option Response) :
    (closedByDo i o = [] ∧ closeStray i o = []) ∨
      (closedByDo i o = [.closedByDo i] ∧ closeStray i o = [.close i]) := by
  cases o <;> simp [closeStray, closedByDo]

theorem decode_not_mem_failedTrace (Do : Nat → DoResult) (n : Nat) :
    ∀ (schedule : List Duration) (i : Nat), Event.decode n ∉ failedTrace Do schedule i := by
  intro schedule
  induction schedule with
  | nil => intro i; simp [failedTrace]
  | cons b rest ih =>
    intro i
    rcases closeStray_cases i (Do i).response with ⟨hd, hc⟩ | ⟨hd, hc⟩ <;>
      simp [failedTrace, hc, hd, ih (i + 1)]

theorem sendsAndSleeps_failedTrace (Do : Nat → DoResult) :
    ∀ (schedule : List Duration) (i : Nat),
      sendsAndSleeps (failedTrace Do schedule i) = attemptsAndWaits schedule i := by
  intro schedule
  induction schedule with
  | nil => intro i; simp [failedTrace, attemptsAndWaits, sendsAndSleeps]
  | cons b rest ih =>
    intro i
    have := ih (i + 1)
    unfold sendsAndSleeps at this ⊢
    rcases closeStray_cases i (Do i).response with ⟨hd, hc⟩ | ⟨hd, hc⟩ <;>
      simp [failedTrace, attemptsAndWaits, hc, hd, List.filter_cons, this]

theorem sendCount_failedTrace (Do : Nat → DoResult) :
    ∀ (schedule : List Duration) (i : Nat),
      sendCount (failedTrace Do schedule i) = schedule.length := by
  intro schedule
  induction schedule with
  | nil => intro i; simp [failedTrace, sendCount]
  | cons b rest ih =>
    intro i
    have := ih (i + 1)
    unfold sendCount at this ⊢
    rcases closeStray_cases i (Do i).response with ⟨hd, hc⟩ | ⟨hd, hc⟩ <;>
      simp [failedTrace, hc, hd, List.filter_cons, this]

theorem sleeps_failedTrace (Do : Nat → DoResult) :
    ∀ (schedule : List Duration) (i : Nat), sleeps (failedTrace Do schedule i) = schedule := by
  intro schedule
  induction schedule with
  | nil => intro i; simp [failedTrace, sleeps]
  | cons b rest ih =>
    intro i
    have := ih (i + 1)
    unfold sleeps at this ⊢
    rcases closeStray_cases i (Do i).response with ⟨hd, hc⟩ | ⟨hd, hc⟩ <;>
      simp [failedTrace, hc, hd, List.filterMap_cons, List.filterMap_append, this]

/-- Either some attempt within the first `n` answers after failures only, or
all of the first `n` attempts fail. -/
theorem transport_dichotomy (Do : Nat → DoResult) :
    ∀ n : Nat, (∃ k r, k < n ∧ Obtains Do k r) ∨ (∀ j, j < n → (Do j).failed = true) := by
  intro n
  induction n with
  | zero => right; intro j hj; exact absurd hj (Nat.not_lt_zero j)
  | succ n ih =>
    rcases ih with ⟨k, r, hk, ho⟩ | hall
    · exact Or.inl ⟨k, r, Nat.lt_succ_of_lt hk, ho⟩
    · cases hdo : Do n with
      | ok r => exact Or.inl ⟨n, r, Nat.lt_succ_self n, hall, hdo⟩
      | fail e p =>
        right
        intro j hj
        rcases Nat.lt_succ_iff_lt_or_eq.mp hj with h1 | h1
        · exact hall j h1
        · subst h1; simp [hdo, DoResult.failed]

/-! ## What the executor can return -/

theorem decodeError_getErrorType_cases (code : Int) (body : Body) (x : Error)
    (h : decodeError (getErrorType code) body = .ok (some x)) :
    x.isTyped = true ∨ x = .errorString "Unknown code" := by
  unfold decodeError at h
  cases body with
  | empty => simp at h
  | malformed => simp at h
  | json j =>
    cases j with
    | obj members =>
      simp only [] at h
      unfold getErrorType at h
      split_ifs at h <;> simp only [decodeStruct] at h <;>
        (cases hm : decodeMessage members "" <;> simp [hm, Except.map] at h <;>
          (subst h; simp [Error.isTyped]))
    | null => simp at h
    | bool b => simp at h
    | num n => simp at h
    | str s => simp at h
    | arr a => simp at h

theorem respond_outcome_cases {τ : Type} (dec : Json → τ → Except DecodeError τ) (i : Nat)
    (r : Response) (v : Option τ) :
    (respond dec i r v).outcome = .returned none ∨
      ∃ e, (respond dec i r v).outcome = .returned (some e) ∧
        (e.isTyped = true ∨ e = .errorString "Unknown code" ∨ ∃ d, e = .decode d) := by
  unfold respond
  split_ifs with hs
  · cases hd : decodeError (getErrorType r.StatusCode) r.Body with
    | error e => left; rfl
    | ok data =>
      cases data with
      | none => left; rfl
      | some x =>
        right
        refine ⟨x, rfl, ?_⟩
        rcases decodeError_getErrorType_cases _ _ x hd with h1 | h1
        · exact Or.inl h1
        · exact Or.inr (Or.inl h1)
  · cases v with
    | none => left; rfl
    | some t =>
      cases hd : decodeTarget dec r.Body t with
      | error e => right; exact ⟨.decode e, by simp [hd], Or.inr (Or.inr ⟨e, rfl⟩)⟩
      | ok t2 => left; simp [hd]

theorem respond_index {τ : Type} (dec : Json → τ → Except DecodeError τ) (i j : Nat)
    (r : Response) (v : Option τ) :
    (respond dec i r v).outcome = (respond dec j r v).outcome ∧
      (respond dec i r v).target = (respond dec j r v).target := by
  unfold respond
  split_ifs with hs
  · cases decodeError (getErrorType r.StatusCode) r.Body <;> simp
  · cases v with
    | none => simp
    | some t => cases hd : decodeTarget dec r.Body t <;> simp [hd]

theorem sendRequest_nil_schedule {τ : Type} (c : Client)
    (dec : Json → τ → Except DecodeError τ) (req : Request) (v : Option τ) :
    (sendRequest [] c dec req v).outcome = .fault := rfl

/-- Every outcome of `sendRequest`: a fault (empty schedule only), nil, a
transport error, a typed variant, the generic error, or a decode error. -/
theorem sendRequest_outcome_cases {τ : Type} (schedule : List Duration) (c : Client)
    (dec : Json → τ → Except DecodeError τ) (req : Request) (v : Option τ) :
    ((sendRequest schedule c dec req v).outcome = .fault ∧ schedule = []) ∨
      (sendRequest schedule c dec req v).outcome = .returned none ∨
      ∃ e, (sendRequest schedule c dec req v).outcome = .returned (some e) ∧
        (e.isTyped = true ∨ e = .errorString "Unknown code" ∨ (∃ d, e = .decode d) ∨
          ∃ msg, e = .transport msg) := by
  by_cases hne : schedule = []
  · subst hne; exact Or.inl ⟨rfl, rfl⟩
  · right
    rcases transport_dichotomy (c.HTTPClient.Do (withHeaders req)) schedule.length with
      ⟨k, r, hk, ho⟩ | hall
    · rw [sendRequest_obtains schedule c dec req v k r ⟨hk, ho⟩]
      rcases respond_outcome_cases dec k r v with h1 | ⟨e, h1, h2⟩
      · exact Or.inl h1
      · refine Or.inr ⟨e, h1, ?_⟩
        rcases h2 with h2 | h2 | h2
        · exact Or.inl h2
        · exact Or.inr (Or.inl h2)
        · exact Or.inr (Or.inr (Or.inl h2))
    · rw [sendRequest_allFail schedule c dec req v hne hall]
      have hlast : (c.HTTPClient.Do (withHeaders req) (schedule.length - 1)).failed = true :=
        hall _ (by cases schedule with
          | nil => exact absurd rfl hne
          | cons b rest => simp)
      cases hdo : c.HTTPClient.Do (withHeaders req) (schedule.length - 1) with
      | ok r0 => simp [hdo, DoResult.failed] at hlast
      | fail e p => exact Or.inr ⟨.transport e, rfl, Or.inr (Or.inr (Or.inr ⟨e, rfl⟩))⟩

theorem respond_trace_cases {τ : Type} (dec : Json → τ → Except DecodeError τ) (i : Nat)
    (r : Response) (v : Option τ) :
    (respond dec i r v).trace = [.decode i, .close i] ∨ (respond dec i r v).trace = [.close i] := by
  unfold respond
  split_ifs with hs
  · cases decodeError (getErrorType r.StatusCode) r.Body <;> simp
  · cases v with
    | none => simp
    | some t => cases hd : decodeTarget dec r.Body t <;> simp [hd]

theorem sendCount_append (a b : List Event) : sendCount (a ++ b) = sendCount a + sendCount b := by
  simp [sendCount, List.filter_append]

theorem sleeps_append (a b : List Event) : sleeps (a ++ b) = sleeps a ++ sleeps b := by
  simp [sleeps, List.filterMap_append]

theorem sendsAndSleeps_append (a b : List Event) :
    sendsAndSleeps (a ++ b) = sendsAndSleeps a ++ sendsAndSleeps b := by
  simp [sendsAndSleeps, List.filter_append]

theorem count_close_failedTrace (Do : Nat → DoResult) (i : Nat) :
    ∀ (schedule : List Duration) (j : Nat),
      (failedTrace Do schedule j).count (.close i) =
        if j ≤ i ∧ i < j + schedule.length ∧ (Do i).response.isSome = true then 1 else 0 := by
  intro schedule
  induction schedule with
  | nil =>
    intro j
    simp only [failedTrace, List.count_nil, List.length_nil]
    rw [if_neg]
    intro h
    omega
  | cons b rest ih =>
    intro j
    simp only [failedTrace, List.count_append, ih (j + 1), List.length_cons]
    by_cases hij : i = j
    · subst hij
      cases hr : (Do i).response with
      | none => simp [closeStray, closedByDo, hr]
      | some r0 => simp [closeStray, closedByDo, hr]
    · have hji : ¬ j = i := fun h => hij h.symm
      have hc : (closeStray j (Do j).response).count (.close i) = 0 := by
        apply List.count_eq_zero.mpr
        cases (Do j).response <;> simp [closeStray, hij]
      have hd : (closedByDo j (Do j).response).count (.close i) = 0 := by
        cases (Do j).response <;> simp [closedByDo]
      rw [hc, hd]
      simp
      by_cases h1 : j + 1 ≤ i ∧ i < j + 1 + rest.length ∧ (Do i).response.isSome = true
      · rw [if_pos h1, if_pos ⟨by omega, by omega, h1.2.2⟩]
      · rw [if_neg h1, if_neg]
        intro h2
        exact h1 ⟨by omega, by omega, h2.2.2⟩

theorem count_closedByDo_failedTrace (Do : Nat → DoResult) (i : Nat) :
    ∀ (schedule : List Duration) (j : Nat),
      (failedTrace Do schedule j).count (.closedByDo i) =
        if j ≤ i ∧ i < j + schedule.length ∧ (Do i).response.isSome = true then 1 else 0 := by
  intro schedule
  induction schedule with
  | nil =>
    intro j
    simp only [failedTrace, List.count_nil, List.length_nil]
    rw [if_neg]
    intro h
    omega
  | cons b rest ih =>
    intro j
    simp only [failedTrace, List.count_append, ih (j + 1), List.length_cons]
    by_cases hij : i = j
    · subst hij
      cases hr : (Do i).response with
      | none => simp [closeStray, closedByDo, hr]
      | some r0 => simp [closeStray, closedByDo, hr]
    · have hji : ¬ j = i := fun h => hij h.symm
      have hc : (closeStray j (Do j).response).count (.closedByDo i) = 0 := by
        cases (Do j).response <;> simp [closeStray]
      have hd : (closedByDo j (Do j).response).count (.closedByDo i) = 0 := by
        apply List.count_eq_zero.mpr
        cases (Do j).response <;> simp [closedByDo, hij]
      rw [hc, hd]
      simp
      by_cases h1 : j + 1 ≤ i ∧ i < j + 1 + rest.length ∧ (Do i).response.isSome = true
      · rw [if_pos h1, if_pos ⟨by omega, by omega, h1.2.2⟩]
      · rw [if_neg h1, if_neg]
        intro h2
        exact h1 ⟨by omega, by omega, h2.2.2⟩

theorem send_mem_failedTrace (Do : Nat → DoResult) (i : Nat) :
    ∀ (schedule : List Duration) (j : Nat),
      Event.send i ∈ failedTrace Do schedule j ↔ j ≤ i ∧ i < j + schedule.length := by
  intro schedule
  induction schedule with
  | nil => intro j; simp [failedTrace]
  | cons b rest ih =>
    intro j
    have hc : Event.send i ∉ closeStray j (Do j).response := by
      cases (Do j).response <;> simp [closeStray]
    have hd : Event.send i ∉ closedByDo j (Do j).response := by
      cases (Do j).response <;> simp [closedByDo]
    simp only [failedTrace, List.mem_append, ih (j + 1), List.length_cons]
    simp [hc, hd]
    omega

theorem stray_closed_before_wait (Do : Nat → DoResult) (i : Nat) (e : String) (r0 : Response)
    (hdo : Do i = .fail e (some r0)) :
    ∀ (schedule : List Duration) (j : Nat), j ≤ i → i < j + schedule.length →
      ∃ d, [Event.send i, Event.closedByDo i, Event.close i, Event.sleep d] <:+:
        failedTrace Do schedule j := by
  intro schedule
  induction schedule with
  | nil => intro j h1 h2; simp at h2; omega
  | cons b rest ih =>
    intro j h1 h2
    by_cases hij : i = j
    · subst hij
      refine ⟨b, [], failedTrace Do rest (i + 1), ?_⟩
      simp [failedTrace, hdo, DoResult.response, closeStray, closedByDo]
    · obtain ⟨d, hd⟩ := ih (j + 1) (by omega) (by simp at h2; omega)
      refine ⟨d, ?_⟩
      unfold failedTrace
      exact List.IsInfix.trans hd (List.suffix_append _ _).isInfix

/-! ## The claims -/

/-- C3: for every status code `c`, `getErrorType c` is BadRequest for 400,
NotFound for 404, Conflict for 409, InternalServerError for `c ≥ 500`, each
with an empty message, and for every code below 200, every 3xx and every
other 4xx it is the generic error "Unknown code", none of the typed variants. -/
theorem getErrorType_mapping (c : Int) :
    (c = 400 → getErrorType c = .BadRequestError "") ∧
    (c = 404 → getErrorType c = .NotFoundError "") ∧
    (c = 409 → getErrorType c = .ConflictError "") ∧
    (c ≥ 500 → getErrorType c = .InternalServerError "") ∧
    ((c < 200 ∨ (300 ≤ c ∧ c < 400) ∨ (400 ≤ c ∧ c < 500 ∧ c ≠ 400 ∧ c ≠ 404 ∧ c ≠ 409)) →
      getErrorType c = .errorString "Unknown code" ∧ (getErrorType c).isTyped = false) := by
  unfold getErrorType StatusBadRequest StatusNotFound StatusConflict StatusInternalServerError
  refine ⟨?_, ?_, ?_, ?_, ?_⟩
  · intro h; simp [h]
  · intro h; simp [h]
  · intro h; simp [h]
  · intro h
    have h1 : c ≠ 400 := by omega
    have h2 : c ≠ 404 := by omega
    have h3 : c ≠ 409 := by omega
    simp [h1, h2, h3, h]
  · intro h
    have h1 : c ≠ 400 := by omega
    have h2 : c ≠ 404 := by omega
    have h3 : c ≠ 409 := by omega
    have h4 : ¬ c ≥ 500 := by omega
    simp [h1, h2, h3, h4, Error.isTyped]

/-- C3 at the codes 400, 404, 409, 503, 401, 100 and 302. -/
theorem getErrorType_mapping_witness :
    getErrorType 400 = .BadRequestError "" ∧ getErrorType 404 = .NotFoundError "" ∧
    getErrorType 409 = .ConflictError "" ∧ getErrorType 503 = .InternalServerError "" ∧
    (getErrorType 401 = .errorString "Unknown code" ∧ (getErrorType 401).isTyped = false) ∧
    (getErrorType 100 = .errorString "Unknown code" ∧ (getErrorType 100).isTyped = false) ∧
    (getErrorType 302 = .errorString "Unknown code" ∧ (getErrorType 302).isTyped = false) :=
  ⟨(getErrorType_mapping 400).1 rfl, (getErrorType_mapping 404).2.1 rfl,
    (getErrorType_mapping 409).2.2.1 rfl, (getErrorType_mapping 503).2.2.2.1 (by decide),
    (getErrorType_mapping 401).2.2.2.2 (by decide),
    (getErrorType_mapping 100).2.2.2.2 (by decide),
    (getErrorType_mapping 302).2.2.2.2 (by decide)⟩

/-- C2: when the response obtained has status 400, 404, 409 or at least 500
and its body decodes as an error body with message `m`, `sendRequest` returns
the variant matching the status (BadRequest, NotFound, Conflict,
InternalServerError) carrying exactly `m`, the text of that error contains
`m`, and `Fetch`, `Create` and `Delete`, once their request is built, return
that same error. -/
theorem typed_error_carries_message {τ Acc : Type} (schedule : List Duration) (c : Client)
    (dec : Json → τ → Except DecodeError τ) (req : Request) (v : Option τ) (k : Nat)
    (r : Response) (m : String) (h : SendObtains schedule c req k r)
    (hs : r.StatusCode = 400 ∨ r.StatusCode = 404 ∨ r.StatusCode = 409 ∨ r.StatusCode ≥ 500)
    (hb : IsErrorBody r.Body m) :
    ∃ e : Error,
      (r.StatusCode = 400 → e = .BadRequestError m) ∧
      (r.StatusCode = 404 → e = .NotFoundError m) ∧
      (r.StatusCode = 409 → e = .ConflictError m) ∧
      (r.StatusCode ≥ 500 → e = .InternalServerError m) ∧
      Contains e.text m ∧
      (sendRequest schedule c dec req v).outcome = .returned (some e) ∧
      (∀ (lib : Lib Acc) (id : String), id ≠ "" →
        NewRequest lib "GET" (c.HostURL ++ ACCOUNTS_API_PATH ++ "/" ++ id) none = .ok req →
        (Fetch lib schedule c id).outcome = .returned (none, some e)) ∧
      (∀ (lib : Lib Acc) (accountData : Option Acc) (body : String),
        lib.Marshal { Data := accountData } = .ok body →
        NewRequest lib "POST" (c.HostURL ++ ACCOUNTS_API_PATH) (some body) = .ok req →
        (Create lib schedule c accountData).outcome = .returned (none, some e)) ∧
      (∀ (lib : Lib Acc) (accountId : String) (version : Int),
        NewRequest lib "DELETE"
          (c.HostURL ++ ACCOUNTS_API_PATH ++ "/" ++ accountId ++ "?version=" ++
            toString version) none = .ok req →
        (Delete lib schedule c accountId version).outcome = .returned (some e)) := by
  have hout : r.StatusCode < 200 ∨ r.StatusCode ≥ 400 := by omega
  have hsend : ∀ {σ : Type} (d : Json → σ → Except DecodeError σ) (w : Option σ),
      (sendRequest schedule c d req w).outcome =
        .returned (some (match getErrorType r.StatusCode with
          | .NotFoundError _ => .NotFoundError m
          | .ConflictError _ => .ConflictError m
          | .InternalServerError _ => .InternalServerError m
          | .BadRequestError _ => .BadRequestError m
          | e => e)) := by
    intro σ d w
    rw [(sendRequest_errorStatus schedule c d req w k r h hout).1,
      decodeError_typed r.StatusCode r.Body m hb]
  refine ⟨_, ?_, ?_, ?_, ?_, ?_, hsend dec v, ?_, ?_, ?_⟩
  · intro h4; rw [h4, getErrorType_badRequest]
  · intro h4; rw [h4, getErrorType_notFound]
  · intro h4; rw [h4, getErrorType_conflict]
  · intro h4; rw [getErrorType_serverError r.StatusCode h4]
  · rcases hs with h4 | h4 | h4 | h4
    · rw [h4, getErrorType_badRequest]; exact contains_append _ m
    · rw [h4, getErrorType_notFound]; exact contains_append _ m
    · rw [h4, getErrorType_conflict]; exact contains_append _ m
    · rw [getErrorType_serverError r.StatusCode h4]; exact contains_append _ m
  · intro lib id hid hreq
    exact Fetch_built lib schedule c id req hid hreq _ (hsend _ _)
  · intro lib accountData body hm hreq
    exact Create_built lib schedule c accountData body req hm hreq _ (hsend _ _)
  · intro lib accountId version hreq
    exact Delete_built lib schedule c accountId version req hreq _ (hsend _ _)

/-- C2 at the 404 of the fetch scenario: the transport answers the first
attempt with status 404 and the body with message "record does not exist". -/
theorem typed_error_carries_message_witness :
    SendObtains backoffSchedule
        (NewClient "http://localhost:8080"
          (answering { StatusCode := 404, Body := errorBody "record does not exist" }))
        { Method := "GET", URL := "http://localhost:8080/v1/organisation/accounts/c2743ea9",
          Header := [], Body := none } 0
        { StatusCode := 404, Body := errorBody "record does not exist" } ∧
      (Fetch sampleLib backoffSchedule
        (NewClient "http://localhost:8080"
          (answering { StatusCode := 404, Body := errorBody "record does not exist" }))
        "c2743ea9").outcome =
          .returned (none, some (.NotFoundError "record does not exist")) ∧
      Contains (Error.NotFoundError "record does not exist").text "record does not exist" := by
  have hob : SendObtains backoffSchedule
      (NewClient "http://localhost:8080"
        (answering { StatusCode := 404, Body := errorBody "record does not exist" }))
      { Method := "GET", URL := "http://localhost:8080/v1/organisation/accounts/c2743ea9",
        Header := [], Body := none } 0
      { StatusCode := 404, Body := errorBody "record does not exist" } :=
    ⟨by decide, fun j hj => absurd hj (Nat.not_lt_zero j), rfl⟩
  obtain ⟨e, -, h404, -, -, hc, -, hF, -, -⟩ :=
    @typed_error_carries_message Unit Account backoffSchedule _ (fun _ t => .ok t) _ none 0 _
      "record does not exist" hob (Or.inr (Or.inl rfl)) (isErrorBody_errorBody _)
  have he := h404 rfl
  subst he
  exact ⟨hob, hF sampleLib "c2743ea9" (by decide) rfl, hc⟩

/-- C1, the code at the failing input: `Delete` answered by a 404 with an
empty body returns nil, no error at all; so does `sendRequest` for a body that
is not JSON. -/
theorem Delete_notFound_empty_body_returns_nil :
    (Delete sampleLib backoffSchedule
      (NewClient "http://localhost:8080" (answering { StatusCode := 404, Body := .empty }))
      "6f22743b-9787-4c08-b8b9-ef6d444b870e" 0).outcome = .returned none ∧
    (sendRequest backoffSchedule
      (NewClient "http://localhost:8080" (answering { StatusCode := 404, Body := .malformed }))
      sampleLib.Unmarshal
      { Method := "DELETE", URL := "http://localhost:8080/v1/organisation/accounts/x?version=0",
        Header := [], Body := none } none).outcome = .returned none :=
  ⟨rfl, rfl⟩

/-- C9 fails as stated: a 401 whose body carries the message "forbidden"
yields the error with text "Unknown code", in which the message does not occur. -/
theorem unknown_error_drops_message :
    (sendRequest backoffSchedule
      (NewClient "http://localhost:8080"
        (answering { StatusCode := 401, Body := errorBody "forbidden" }))
      sampleLib.Unmarshal
      { Method := "GET", URL := "http://localhost:8080/v1/organisation/accounts/x",
        Header := [], Body := none } none).outcome =
        .returned (some (.errorString "Unknown code")) ∧
    (Error.errorString "Unknown code").text = "Unknown code" ∧
    ¬ Contains (Error.errorString "Unknown code").text "forbidden" := by
  refine ⟨rfl, rfl, ?_⟩
  unfold Contains
  decide

/-- C9 as amended: when the response obtained has a status classified Unknown
(outside [200,400), not 400, 404 or 409, below 500) and its body is an error
body with message `m`, `sendRequest` returns the generic error made by the
classifier, whose text is "Unknown code" whatever `m` is, and which is none
of the typed variants. -/
theorem unknown_error_is_generic {τ : Type} (schedule : List Duration) (c : Client)
    (dec : Json → τ → Except DecodeError τ) (req : Request) (v : Option τ) (k : Nat)
    (r : Response) (m : String) (h : SendObtains schedule c req k r)
    (hs : (r.StatusCode < 200 ∨ r.StatusCode ≥ 400) ∧ r.StatusCode ≠ 400 ∧
      r.StatusCode ≠ 404 ∧ r.StatusCode ≠ 409 ∧ r.StatusCode < 500)
    (hb : IsErrorBody r.Body m) :
    (sendRequest schedule c dec req v).outcome = .returned (some (.errorString "Unknown code")) ∧
      (Error.errorString "Unknown code").text = "Unknown code" ∧
      (Error.errorString "Unknown code").isTyped = false := by
  refine ⟨?_, rfl, rfl⟩
  have hu : getErrorType r.StatusCode = .errorString "Unknown code" :=
    getErrorType_unknown r.StatusCode hs.2.1 hs.2.2.1 hs.2.2.2.1 hs.2.2.2.2
  rw [(sendRequest_errorStatus schedule c dec req v k r h hs.1).1,
    decodeError_typed r.StatusCode r.Body m hb, hu]

/-- C9 as amended, at a 403 obtained after one refused connection. -/
theorem unknown_error_is_generic_witness :
    SendObtains backoffSchedule
        (NewClient "http://localhost:8080"
          (refusedThen 1 { StatusCode := 403, Body := errorBody "no access" }))
        { Method := "GET", URL := "http://localhost:8080/v1/organisation/accounts/x",
          Header := [], Body := none } 1
        { StatusCode := 403, Body := errorBody "no access" } ∧
      (sendRequest backoffSchedule
        (NewClient "http://localhost:8080"
          (refusedThen 1 { StatusCode := 403, Body := errorBody "no access" }))
        sampleLib.Unmarshal
        { Method := "GET", URL := "http://localhost:8080/v1/organisation/accounts/x",
          Header := [], Body := none } none).outcome =
          .returned (some (.errorString "Unknown code")) := by
  have hob : SendObtains backoffSchedule
      (NewClient "http://localhost:8080"
        (refusedThen 1 { StatusCode := 403, Body := errorBody "no access" }))
      { Method := "GET", URL := "http://localhost:8080/v1/organisation/accounts/x",
        Header := [], Body := none } 1
      { StatusCode := 403, Body := errorBody "no access" } := by
    refine ⟨by decide, ?_, rfl⟩
    intro j hj
    have hj0 : j = 0 := by omega
    subst hj0
    rfl
  exact ⟨hob, (unknown_error_is_generic backoffSchedule _ sampleLib.Unmarshal _ none 1 _
    "no access" hob (by decide) (isErrorBody_errorBody _)).1⟩

/-- The two branches after the loop.  For a response obtained with status in
[200,400): without an output target `sendRequest` returns nil and no decoder
reads the body, whatever the body is; with an output target it returns nil
exactly when the body decodes into the target, and that decode error
otherwise.  For a status outside [200,400) the target is left as it was,
target and decoder have no influence on the outcome, and the body is decoded
into the classified value; this says nothing on whether an error is returned
there. -/
theorem sendRequest_success_range {τ : Type} (schedule : List Duration) (c : Client)
    (dec : Json → τ → Except DecodeError τ) (req : Request) (v : Option τ) (k : Nat)
    (r : Response) (h : SendObtains schedule c req k r) :
    (200 ≤ r.StatusCode ∧ r.StatusCode < 400 →
      (v = none →
        (sendRequest schedule c dec req v).outcome = .returned none ∧
        ∀ n, Event.decode n ∉ (sendRequest schedule c dec req v).trace) ∧
      (∀ t, v = some t →
        ((sendRequest schedule c dec req v).outcome = .returned none ↔
          ∃ t2, decodeTarget dec r.Body t = .ok t2) ∧
        (∀ e, decodeTarget dec r.Body t = .error e →
          (sendRequest schedule c dec req v).outcome = .returned (some (.decode e))) ∧
        (∀ t2, decodeTarget dec r.Body t = .ok t2 →
          (sendRequest schedule c dec req v).target = some t2))) ∧
    (¬ (200 ≤ r.StatusCode ∧ r.StatusCode < 400) →
      (sendRequest schedule c dec req v).target = v ∧
      (∀ (σ : Type) (dec2 : Json → σ → Except DecodeError σ) (v2 : Option σ),
        (sendRequest schedule c dec2 req v2).outcome =
          (sendRequest schedule c dec req v).outcome) ∧
      (∀ data, decodeError (getErrorType r.StatusCode) r.Body = .ok data →
        (sendRequest schedule c dec req v).outcome = .returned data) ∧
      (sendRequest schedule c dec req v).trace =
        failedTrace (c.HTTPClient.Do (withHeaders req)) (schedule.take k) 0 ++
          [.send k, .decode k, .close k]) := by
  constructor
  · intro hs
    have hs2 : ¬ (r.StatusCode < StatusOK ∨ r.StatusCode ≥ StatusBadRequest) := by
      unfold StatusOK StatusBadRequest; omega
    rw [sendRequest_obtains schedule c dec req v k r h]
    simp only [respond, hs2, if_false]
    constructor
    · intro hv
      subst hv
      refine ⟨rfl, ?_⟩
      intro n
      simp [decode_not_mem_failedTrace]
    · intro t hv
      subst hv
      cases hd : decodeTarget dec r.Body t <;> simp [hd]
  · intro hs
    have hs2 : r.StatusCode < 200 ∨ r.StatusCode ≥ 400 := by omega
    refine ⟨(sendRequest_errorStatus schedule c dec req v k r h hs2).2.1, ?_, ?_,
      (sendRequest_errorStatus schedule c dec req v k r h hs2).2.2⟩
    · intro σ dec2 v2
      rw [(sendRequest_errorStatus schedule c dec2 req v2 k r h hs2).1,
        (sendRequest_errorStatus schedule c dec req v k r h hs2).1]
    · intro data hd
      rw [(sendRequest_errorStatus schedule c dec req v k r h hs2).1, hd]

/-- C4, the code at the failing input: a 404 with an empty body is not
handled as an error.  `sendRequest` returns nil, with or without an output
target, exactly as it does for a 200; so it does for a 500 whose body is the
JSON `null`.  The target is left as it was.  In the success range the code
does what the claim says: a 200 with a target gives nil for a body that
decodes and the decode error for one that does not. -/
theorem errorStatus_returns_nil_like_success :
    (sendRequest backoffSchedule
      (NewClient "http://localhost:8080" (answering { StatusCode := 404, Body := .empty }))
      sampleLib.Unmarshal
      { Method := "GET", URL := "http://localhost:8080/v1/organisation/accounts/x",
        Header := [], Body := none }
      (some { Data := none })).outcome = .returned none ∧
    (sendRequest backoffSchedule
      (NewClient "http://localhost:8080" (answering { StatusCode := 404, Body := .empty }))
      sampleLib.Unmarshal
      { Method := "GET", URL := "http://localhost:8080/v1/organisation/accounts/x",
        Header := [], Body := none }
      (some { Data := none })).trace = [.send 0, .decode 0, .close 0] ∧
    (sendRequest backoffSchedule
      (NewClient "http://localhost:8080" (answering { StatusCode := 404, Body := .empty }))
      sampleLib.Unmarshal
      { Method := "DELETE", URL := "http://localhost:8080/v1/organisation/accounts/x?version=0",
        Header := [], Body := none } none).outcome =
      (sendRequest backoffSchedule
        (NewClient "http://localhost:8080" (answering { StatusCode := 200, Body := .empty }))
        sampleLib.Unmarshal
        { Method := "DELETE", URL := "http://localhost:8080/v1/organisation/accounts/x?version=0",
          Header := [], Body := none } none).outcome ∧
    (sendRequest backoffSchedule
      (NewClient "http://localhost:8080" (answering { StatusCode := 500, Body := .json .null }))
      sampleLib.Unmarshal
      { Method := "GET", URL := "http://localhost:8080/v1/organisation/accounts/x",
        Header := [], Body := none } none).outcome = .returned none ∧
    (sendRequest backoffSchedule
      (NewClient "http://localhost:8080" (answering { StatusCode := 200, Body := .json (.obj []) }))
      sampleLib.Unmarshal
      { Method := "GET", URL := "http://localhost:8080/v1/organisation/accounts/x",
        Header := [], Body := none }
      (some { Data := none })).outcome = .returned none ∧
    (sendRequest backoffSchedule
      (NewClient "http://localhost:8080" (answering { StatusCode := 200, Body := .malformed }))
      sampleLib.Unmarshal
      { Method := "GET", URL := "http://localhost:8080/v1/organisation/accounts/x",
        Header := [], Body := none }
      (some { Data := none })).outcome = .returned (some (.decode .malformed)) :=
  ⟨rfl, rfl, rfl, rfl, rfl, rfl⟩

/-- C5: with a schedule of length N ≥ 1 and a transport that fails on every
attempt, `sendRequest` makes exactly N send attempts, waits each schedule
entry once, in order, each right after its failed attempt, and returns the
transport error of the last attempt; with the built-in schedule these are 3
attempts and waits of 2, 3 and 5 seconds. -/
theorem sendRequest_retries_exhausted {τ : Type} (schedule : List Duration) (c : Client)
    (dec : Json → τ → Except DecodeError τ) (req : Request) (v : Option τ)
    (hne : 1 ≤ schedule.length)
    (hfail : ∀ j, j < schedule.length → (c.HTTPClient.Do (withHeaders req) j).failed = true) :
    sendCount (sendRequest schedule c dec req v).trace = schedule.length ∧
    sleeps (sendRequest schedule c dec req v).trace = schedule ∧
    sendsAndSleeps (sendRequest schedule c dec req v).trace = attemptsAndWaits schedule 0 ∧
    (sendRequest schedule c dec req v).outcome =
      .returned (c.HTTPClient.Do (withHeaders req) (schedule.length - 1)).error ∧
    (∃ msg, (sendRequest schedule c dec req v).outcome = .returned (some (.transport msg))) ∧
    (schedule = backoffSchedule →
      sendCount (sendRequest schedule c dec req v).trace = 3 ∧
      sleeps (sendRequest schedule c dec req v).trace = [2 * Second, 3 * Second, 5 * Second]) := by
  have hne2 : schedule ≠ [] := by
    intro h0; rw [h0] at hne; exact absurd hne (by decide)
  have hcount := sendCount_failedTrace (c.HTTPClient.Do (withHeaders req)) schedule 0
  have hsleeps := sleeps_failedTrace (c.HTTPClient.Do (withHeaders req)) schedule 0
  rw [sendRequest_allFail schedule c dec req v hne2 hfail]
  refine ⟨hcount, hsleeps, sendsAndSleeps_failedTrace _ schedule 0, rfl, ?_, ?_⟩
  · have hlast := hfail (schedule.length - 1) (by omega)
    cases hdo : c.HTTPClient.Do (withHeaders req) (schedule.length - 1) with
    | ok r0 => simp [hdo, DoResult.failed] at hlast
    | fail e p => exact ⟨e, rfl⟩
  · intro hb
    simp only [hcount, hsleeps]
    subst hb
    exact ⟨rfl, rfl⟩

/-- C5 with the built-in schedule and a transport that refuses every connection. -/
theorem sendRequest_retries_exhausted_witness :
    sendCount (sendRequest backoffSchedule (NewClient "http://localhost:1000" refusing)
      sampleLib.Unmarshal
      { Method := "POST", URL := "http://localhost:1000/v1/organisation/accounts",
        Header := [], Body := none } none).trace = 3 ∧
    sleeps (sendRequest backoffSchedule (NewClient "http://localhost:1000" refusing)
      sampleLib.Unmarshal
      { Method := "POST", URL := "http://localhost:1000/v1/organisation/accounts",
        Header := [], Body := none } none).trace = [2 * Second, 3 * Second, 5 * Second] :=
  (sendRequest_retries_exhausted backoffSchedule (NewClient "http://localhost:1000" refusing)
    sampleLib.Unmarshal
    { Method := "POST", URL := "http://localhost:1000/v1/organisation/accounts",
      Header := [], Body := none } none (by decide) (fun _ _ => rfl)).2.2.2.2.2 rfl

/-- C6: when the first `k` attempts fail at the transport level and the next
one returns a response, of any status, `sendRequest` makes exactly `k + 1`
attempts, waits exactly the first `k` schedule entries in order and nothing
after the response, and its result is that of any other call that obtains the
same response: no transport error is returned, and a 200 without output target
gives nil. -/
theorem sendRequest_short_circuit {τ : Type} (schedule : List Duration) (c : Client)
    (dec : Json → τ → Except DecodeError τ) (req : Request) (v : Option τ) (k : Nat)
    (r : Response) (h : SendObtains schedule c req k r) :
    sendCount (sendRequest schedule c dec req v).trace = k + 1 ∧
    sleeps (sendRequest schedule c dec req v).trace = schedule.take k ∧
    sendsAndSleeps (sendRequest schedule c dec req v).trace =
      attemptsAndWaits (schedule.take k) 0 ++ [.send k] ∧
    (∀ (schedule2 : List Duration) (c2 : Client) (req2 : Request) (k2 : Nat),
      SendObtains schedule2 c2 req2 k2 r →
      (sendRequest schedule2 c2 dec req2 v).outcome = (sendRequest schedule c dec req v).outcome ∧
      (sendRequest schedule2 c2 dec req2 v).target = (sendRequest schedule c dec req v).target) ∧
    (∀ msg, (sendRequest schedule c dec req v).outcome ≠ .returned (some (.transport msg))) ∧
    (r.StatusCode = 200 → v = none → (sendRequest schedule c dec req v).outcome = .returned none) := by
  have hlen : (schedule.take k).length = k := by
    rw [List.length_take]; exact Nat.min_eq_left (Nat.le_of_lt h.1)
  have hc := sendCount_failedTrace (c.HTTPClient.Do (withHeaders req)) (schedule.take k) 0
  have hsl := sleeps_failedTrace (c.HTTPClient.Do (withHeaders req)) (schedule.take k) 0
  have hss := sendsAndSleeps_failedTrace (c.HTTPClient.Do (withHeaders req)) (schedule.take k) 0
  rw [hlen] at hc
  rw [sendRequest_obtains schedule c dec req v k r h]
  simp only []
  refine ⟨?_, ?_, ?_, ?_, ?_, ?_⟩
  · rw [sendCount_append, sendCount_append, hc]
    rcases respond_trace_cases dec k r v with ht | ht <;> rw [ht] <;> simp [sendCount]
  · rw [sleeps_append, sleeps_append, hsl]
    rcases respond_trace_cases dec k r v with ht | ht <;> rw [ht] <;> simp [sleeps]
  · rw [sendsAndSleeps_append, sendsAndSleeps_append, hss]
    rcases respond_trace_cases dec k r v with ht | ht <;> rw [ht] <;> simp [sendsAndSleeps]
  · intro schedule2 c2 req2 k2 h2
    rw [sendRequest_obtains schedule2 c2 dec req2 v k2 r h2]
    exact respond_index dec k2 k r v
  · intro msg hmsg
    rcases respond_outcome_cases dec k r v with h1 | ⟨e, h1, h2⟩
    · rw [h1] at hmsg; simp at hmsg
    · rw [h1] at hmsg
      have he : e = .transport msg := by simpa using hmsg
      subst he
      rcases h2 with h2 | h2 | ⟨d, h2⟩ <;> simp [Error.isTyped] at h2
  · intro hs hv
    subst hv
    have hs2 : ¬ (r.StatusCode < StatusOK ∨ r.StatusCode ≥ StatusBadRequest) := by
      unfold StatusOK StatusBadRequest; omega
    simp [respond, hs2]

/-- C6 at a 200 obtained after one refused connection, with the built-in schedule. -/
theorem sendRequest_short_circuit_witness :
    SendObtains backoffSchedule
        (NewClient "http://localhost:8080" (refusedThen 1 { StatusCode := 200, Body := .empty }))
        { Method := "GET", URL := "http://localhost:8080/v1/organisation/accounts",
          Header := [], Body := none } 1 { StatusCode := 200, Body := .empty } ∧
      sendCount (sendRequest backoffSchedule
        (NewClient "http://localhost:8080" (refusedThen 1 { StatusCode := 200, Body := .empty }))
        sampleLib.Unmarshal
        { Method := "GET", URL := "http://localhost:8080/v1/organisation/accounts",
          Header := [], Body := none } none).trace = 1 + 1 ∧
      sleeps (sendRequest backoffSchedule
        (NewClient "http://localhost:8080" (refusedThen 1 { StatusCode := 200, Body := .empty }))
        sampleLib.Unmarshal
        { Method := "GET", URL := "http://localhost:8080/v1/organisation/accounts",
          Header := [], Body := none } none).trace = backoffSchedule.take 1 ∧
      (sendRequest backoffSchedule
        (NewClient "http://localhost:8080" (refusedThen 1 { StatusCode := 200, Body := .empty }))
        sampleLib.Unmarshal
        { Method := "GET", URL := "http://localhost:8080/v1/organisation/accounts",
          Header := [], Body := none } none).outcome = .returned none := by
  have hob : SendObtains backoffSchedule
      (NewClient "http://localhost:8080" (refusedThen 1 { StatusCode := 200, Body := .empty }))
      { Method := "GET", URL := "http://localhost:8080/v1/organisation/accounts",
        Header := [], Body := none } 1 { StatusCode := 200, Body := .empty } := by
    refine ⟨by decide, ?_, rfl⟩
    intro j hj
    have hj0 : j = 0 := by omega
    subst hj0
    rfl
  have hw := sendRequest_short_circuit backoffSchedule _ sampleLib.Unmarshal _ none 1 _ hob
  exact ⟨hob, hw.1, hw.2.1, hw.2.2.2.2.2 rfl rfl⟩

/-- C7: `Fetch` of the empty id returns no payload and the error with text
"Invalid account id", with an empty trace: no request is built, nothing is
sent, nothing is waited for.  For a non-empty id the first thing `Fetch` does
is to build the request, and it never returns that error. -/
theorem Fetch_empty_id {Acc : Type} (lib : Lib Acc) (schedule : List Duration) (c : Client) :
    (Fetch lib schedule c "").outcome =
      .returned (none, some (.errorString "Invalid account id")) ∧
    (Error.errorString "Invalid account id").text = "Invalid account id" ∧
    (Fetch lib schedule c "").trace = [] ∧
    sendCount (Fetch lib schedule c "").trace = 0 ∧
    sleeps (Fetch lib schedule c "").trace = [] ∧
    (∀ id : String, id ≠ "" →
      (Fetch lib schedule c id).trace.head? =
        some (.newRequest (c.HostURL ++ ACCOUNTS_API_PATH ++ "/" ++ id)) ∧
      ∀ p, (Fetch lib schedule c id).outcome ≠
        .returned (p, some (.errorString "Invalid account id"))) := by
  refine ⟨rfl, rfl, rfl, rfl, rfl, ?_⟩
  intro id hid
  unfold Fetch
  simp only [hid, if_false]
  cases hreq : NewRequest lib "GET" (c.HostURL ++ ACCOUNTS_API_PATH ++ "/" ++ id) none with
  | error err =>
    refine ⟨rfl, ?_⟩
    intro p hp
    unfold NewRequest at hreq
    cases hu : lib.urlError (c.HostURL ++ ACCOUNTS_API_PATH ++ "/" ++ id) with
    | none => simp [hu] at hreq
    | some msg =>
      simp [hu] at hreq
      subst hreq
      simp at hp
  | ok req =>
    simp only []
    rcases sendRequest_outcome_cases schedule c lib.Unmarshal req
      (some ({ Data := none } : AccountDataResponse Acc)) with ⟨h1, -⟩ | h1 | ⟨e, h1, h2⟩
    · rw [h1]; exact ⟨rfl, fun p hp => by simp at hp⟩
    · rw [h1]; exact ⟨rfl, fun p hp => by simp at hp⟩
    · rw [h1]
      refine ⟨rfl, ?_⟩
      intro p hp
      have he : e = .errorString "Invalid account id" := by simpa using (congrArg
        (fun o => match o with
          | Outcome.returned (_, some x) => x
          | _ => e) hp)
      subst he
      rcases h2 with h2 | h2 | ⟨d, h2⟩ | ⟨m, h2⟩
      · simp [Error.isTyped] at h2
      · exact absurd h2 (by decide)
      · simp at h2
      · simp at h2

/-- C7 at the id of the fetch scenario. -/
theorem Fetch_empty_id_witness :
    (Fetch sampleLib backoffSchedule
      (NewClient "http://localhost:8080" (answering { StatusCode := 404, Body := .empty }))
      "c2743ea9").trace.head? =
        some (.newRequest ("http://localhost:8080" ++ ACCOUNTS_API_PATH ++ "/" ++ "c2743ea9")) ∧
    (Fetch sampleLib backoffSchedule
      (NewClient "http://localhost:8080" (answering { StatusCode := 404, Body := .empty }))
      "c2743ea9").outcome ≠ .returned (none, some (.errorString "Invalid account id")) :=
  ⟨((Fetch_empty_id sampleLib backoffSchedule
      (NewClient "http://localhost:8080"
        (answering { StatusCode := 404, Body := .empty }))).2.2.2.2.2
      "c2743ea9" (by decide)).1,
    ((Fetch_empty_id sampleLib backoffSchedule
      (NewClient "http://localhost:8080"
        (answering { StatusCode := 404, Body := .empty }))).2.2.2.2.2
      "c2743ea9" (by decide)).2 none⟩

/-- C8, the code at the failing inputs: with an identifier, or a host URL,
that holds a line feed the request cannot be built; `Delete` and `Create`
then end the process with status 1, where `Fetch` returns the error. -/
theorem Delete_Create_unparseable_url_exit :
    (Delete sampleLib backoffSchedule
      (NewClient "http://localhost:8080" (answering { StatusCode := 204, Body := .empty }))
      "\n" 0).outcome = .exit 1 ∧
    (Create sampleLib backoffSchedule
      (NewClient "http://local\nhost:8080" (answering { StatusCode := 201, Body := .empty }))
      (some { ID := "a", Version := 0 })).outcome = .exit 1 ∧
    (Fetch sampleLib backoffSchedule
      (NewClient "http://localhost:8080" (answering { StatusCode := 200, Body := .empty }))
      "\n").outcome =
        .returned (none, some (.request "net/url: invalid control character in URL")) :=
  ⟨rfl, rfl, rfl⟩

/-- C10 fails as stated: when the first attempt fails a redirect check and
comes with a response, the body of that response is closed twice before the
call returns, once by `Do` and once more by line 126. -/
theorem stray_response_closed_twice :
    closes (sendRequest backoffSchedule
      (NewClient "http://localhost:8080"
        (strayThen { StatusCode := 302, Body := .empty } { StatusCode := 200, Body := .empty }))
      sampleLib.Unmarshal
      { Method := "GET", URL := "http://localhost:8080/v1/organisation/accounts/x",
        Header := [], Body := none } none).trace 0 = 2 ∧
    (sendRequest backoffSchedule
      (NewClient "http://localhost:8080"
        (strayThen { StatusCode := 302, Body := .empty } { StatusCode := 200, Body := .empty }))
      sampleLib.Unmarshal
      { Method := "GET", URL := "http://localhost:8080/v1/organisation/accounts/x",
        Header := [], Body := none } none).trace =
      [.send 0, .closedByDo 0, .close 0, .sleep (2 * Second), .send 1, .close 1] :=
  ⟨rfl, rfl⟩

/-- C10 as amended: with a non-empty schedule `sendRequest` returns, and it
calls `Close` itself exactly once on the body of every response it obtains,
and on no other.  The body of the response that ended the retry loop is thereby
closed exactly once in all, as the last event, on every exit path.  The body
of a response that came with a transport error, already closed by `Do`, is
closed once more between that send and the wait, so twice in all.  No body
obtained is left open. -/
theorem sendRequest_closes_each_body {τ : Type} (schedule : List Duration) (c : Client)
    (dec : Json → τ → Except DecodeError τ) (req : Request) (v : Option τ)
    (hne : schedule ≠ []) :
    (∃ e, (sendRequest schedule c dec req v).outcome = .returned e) ∧
    (∀ i, (sendRequest schedule c dec req v).trace.count (.close i) =
      if Event.send i ∈ (sendRequest schedule c dec req v).trace ∧
          (c.HTTPClient.Do (withHeaders req) i).response.isSome = true then 1 else 0) ∧
    (∀ i, closes (sendRequest schedule c dec req v).trace i =
      if Event.send i ∈ (sendRequest schedule c dec req v).trace ∧
          (c.HTTPClient.Do (withHeaders req) i).response.isSome = true then
        (if (c.HTTPClient.Do (withHeaders req) i).failed = true then 2 else 1)
      else 0) ∧
    (∀ i e r0, c.HTTPClient.Do (withHeaders req) i = .fail e (some r0) →
      Event.send i ∈ (sendRequest schedule c dec req v).trace →
      ∃ d, [Event.send i, Event.closedByDo i, Event.close i, Event.sleep d] <:+:
        (sendRequest schedule c dec req v).trace) ∧
    (∀ k r, SendObtains schedule c req k r →
      (sendRequest schedule c dec req v).trace.getLast? = some (.close k) ∧
      closes (sendRequest schedule c dec req v).trace k = 1) := by
  have hlast : ∀ k r, SendObtains schedule c req k r →
      (sendRequest schedule c dec req v).trace.getLast? = some (.close k) := by
    intro k r h
    rw [sendRequest_obtains schedule c dec req v k r h]
    rcases respond_trace_cases dec k r v with ht | ht <;> simp [ht, List.getLast?_append]
  have hfinal : ∀ k r, SendObtains schedule c req k r →
      (∀ i, closes (sendRequest schedule c dec req v).trace i =
        if Event.send i ∈ (sendRequest schedule c dec req v).trace ∧
            (c.HTTPClient.Do (withHeaders req) i).response.isSome = true then
          (if (c.HTTPClient.Do (withHeaders req) i).failed = true then 2 else 1)
        else 0) →
      closes (sendRequest schedule c dec req v).trace k = 1 := by
    intro k r h hall
    have hmem : Event.send k ∈ (sendRequest schedule c dec req v).trace := by
      rw [sendRequest_obtains schedule c dec req v k r h]
      simp
    rw [hall k, if_pos ⟨hmem, by simp [h.2.2, DoResult.response]⟩]
    simp [h.2.2, DoResult.failed]
  have key : (∃ e, (sendRequest schedule c dec req v).outcome = .returned e) ∧
      (∀ i, (sendRequest schedule c dec req v).trace.count (.close i) =
        if Event.send i ∈ (sendRequest schedule c dec req v).trace ∧
            (c.HTTPClient.Do (withHeaders req) i).response.isSome = true then 1 else 0) ∧
      (∀ i, (sendRequest schedule c dec req v).trace.count (.closedByDo i) =
        if Event.send i ∈ (sendRequest schedule c dec req v).trace ∧
            (c.HTTPClient.Do (withHeaders req) i).response.isSome = true ∧
            (c.HTTPClient.Do (withHeaders req) i).failed = true then 1 else 0) ∧
      (∀ i e r0, c.HTTPClient.Do (withHeaders req) i = .fail e (some r0) →
        Event.send i ∈ (sendRequest schedule c dec req v).trace →
        ∃ d, [Event.send i, Event.closedByDo i, Event.close i, Event.sleep d] <:+:
          (sendRequest schedule c dec req v).trace) := by
    rcases transport_dichotomy (c.HTTPClient.Do (withHeaders req)) schedule.length with
      ⟨k, r, hk, ho⟩ | hall
    · have hlen : (schedule.take k).length = k := by
        rw [List.length_take]; exact Nat.min_eq_left (Nat.le_of_lt hk)
      have hsend : ∀ i, Event.send i ∈ (sendRequest schedule c dec req v).trace ↔ i ≤ k := by
        intro i
        rw [sendRequest_obtains schedule c dec req v k r ⟨hk, ho⟩]
        simp only [List.mem_append, send_mem_failedTrace, hlen]
        rcases respond_trace_cases dec k r v with ht | ht <;> simp [ht] <;> omega
      have hcount : ∀ i, (sendRequest schedule c dec req v).trace.count (.close i) =
          (if i < k ∧ (c.HTTPClient.Do (withHeaders req) i).response.isSome = true
            then 1 else 0) + (if i = k then 1 else 0) := by
        intro i
        rw [sendRequest_obtains schedule c dec req v k r ⟨hk, ho⟩]
        simp only [List.count_append, count_close_failedTrace, hlen, Nat.zero_le, true_and,
          Nat.zero_add]
        by_cases hik : i = k
        · subst hik
          rcases respond_trace_cases dec i r v with ht | ht <;> rw [ht] <;> simp
        · have hki : ¬ k = i := fun h => hik h.symm
          rcases respond_trace_cases dec k r v with ht | ht <;> rw [ht] <;> simp [hik, hki]
      have hcountD : ∀ i, (sendRequest schedule c dec req v).trace.count (.closedByDo i) =
          (if i < k ∧ (c.HTTPClient.Do (withHeaders req) i).response.isSome = true
            then 1 else 0) := by
        intro i
        rw [sendRequest_obtains schedule c dec req v k r ⟨hk, ho⟩]
        simp only [List.count_append, count_closedByDo_failedTrace, hlen, Nat.zero_le, true_and,
          Nat.zero_add]
        rcases respond_trace_cases dec k r v with ht | ht <;> rw [ht] <;> simp
      refine ⟨?_, ?_, ?_, ?_⟩
      · rw [sendRequest_obtains schedule c dec req v k r ⟨hk, ho⟩]
        rcases respond_outcome_cases dec k r v with h1 | ⟨e, h1, -⟩
        · exact ⟨none, h1⟩
        · exact ⟨some e, h1⟩
      · intro i
        rw [hcount i]
        simp only [hsend i]
        by_cases hik : i = k
        · subst hik
          simp [ho.2, DoResult.response]
        · by_cases hlt : i < k
          · have hle : i ≤ k := Nat.le_of_lt hlt
            simp [hik, hlt, hle]
          · have hle : ¬ i ≤ k := by omega
            simp [hik, hlt, hle]
      · intro i
        rw [hcountD i]
        simp only [hsend i]
        by_cases hik : i = k
        · subst hik
          simp [ho.2, DoResult.failed]
        · by_cases hlt : i < k
          · have hle : i ≤ k := Nat.le_of_lt hlt
            have hf := ho.1 i hlt
            simp [hlt, hle, hf]
          · have hle : ¬ i ≤ k := by omega
            simp [hlt, hle]
      · intro i e r0 hdo hmem
        have hle := (hsend i).mp hmem
        have hik : i ≠ k := by
          intro h; subst h; rw [ho.2] at hdo; simp at hdo
        obtain ⟨d, hd⟩ := stray_closed_before_wait (c.HTTPClient.Do (withHeaders req)) i e r0
          hdo (schedule.take k) 0 (Nat.zero_le i) (by rw [hlen]; omega)
        refine ⟨d, ?_⟩
        rw [sendRequest_obtains schedule c dec req v k r ⟨hk, ho⟩]
        simp only [List.append_assoc]
        exact List.IsInfix.trans hd (List.prefix_append _ _).isInfix
    · have heq := sendRequest_allFail schedule c dec req v hne hall
      refine ⟨?_, ?_, ?_, ?_⟩
      · rw [heq]; exact ⟨_, rfl⟩
      · intro i
        rw [heq]
        simp only [count_close_failedTrace, send_mem_failedTrace, Nat.zero_le, true_and,
          Nat.zero_add]
      · intro i
        rw [heq]
        simp only [count_closedByDo_failedTrace, send_mem_failedTrace, Nat.zero_le, true_and,
          Nat.zero_add]
        by_cases hlt : i < schedule.length
        · simp [hlt, hall i hlt]
        · simp [hlt]
      · intro i e r0 hdo hmem
        rw [heq] at hmem ⊢
        have := (send_mem_failedTrace _ i schedule 0).mp hmem
        exact stray_closed_before_wait _ i e r0 hdo schedule 0 this.1 this.2
  obtain ⟨h1, h2, h3, h4⟩ := key
  have hall : ∀ i, closes (sendRequest schedule c dec req v).trace i =
      if Event.send i ∈ (sendRequest schedule c dec req v).trace ∧
          (c.HTTPClient.Do (withHeaders req) i).response.isSome = true then
        (if (c.HTTPClient.Do (withHeaders req) i).failed = true then 2 else 1)
      else 0 := by
    intro i
    unfold closes
    rw [h2 i, h3 i]
    by_cases ha : Event.send i ∈ (sendRequest schedule c dec req v).trace ∧
        (c.HTTPClient.Do (withHeaders req) i).response.isSome = true
    · by_cases hf : (c.HTTPClient.Do (withHeaders req) i).failed = true
      · rw [if_pos ha, if_pos ⟨ha.1, ha.2, hf⟩, if_pos ha, if_pos hf]
      · rw [if_pos ha, if_neg (fun h => hf h.2.2), if_pos ha, if_neg hf]
    · rw [if_neg ha, if_neg (fun h => ha ⟨h.1, h.2.1⟩), if_neg ha]
  exact ⟨h1, h2, hall, h4, fun k r h => ⟨hlast k r h, hfinal k r h hall⟩⟩

/-- C10 as amended, with the built-in schedule, a first attempt that fails
and comes with a response, and a second attempt answered by a 404. -/
theorem sendRequest_closes_each_body_witness :
    backoffSchedule ≠ [] ∧
    closes (sendRequest backoffSchedule
      (NewClient "http://localhost:8080"
        (strayThen { StatusCode := 302, Body := .empty } { StatusCode := 404, Body := .empty }))
      sampleLib.Unmarshal
      { Method := "GET", URL := "http://localhost:8080/v1/organisation/accounts/x",
        Header := [], Body := none } none).trace 0 = 2 ∧
    closes (sendRequest backoffSchedule
      (NewClient "http://localhost:8080"
        (strayThen { StatusCode := 302, Body := .empty } { StatusCode := 404, Body := .empty }))
      sampleLib.Unmarshal
      { Method := "GET", URL := "http://localhost:8080/v1/organisation/accounts/x",
        Header := [], Body := none } none).trace 1 = 1 ∧
    closes (sendRequest backoffSchedule
      (NewClient "http://localhost:8080"
        (strayThen { StatusCode := 302, Body := .empty } { StatusCode := 404, Body := .empty }))
      sampleLib.Unmarshal
      { Method := "GET", URL := "http://localhost:8080/v1/organisation/accounts/x",
        Header := [], Body := none } none).trace 2 = 0 := by
  have hw := (sendRequest_closes_each_body backoffSchedule
    (NewClient "http://localhost:8080"
      (strayThen { StatusCode := 302, Body := .empty } { StatusCode := 404, Body := .empty }))
    sampleLib.Unmarshal
    { Method := "GET", URL := "http://localhost:8080/v1/organisation/accounts/x",
      Header := [], Body := none } none (by decide)).2.2.1
  refine ⟨by decide, ?_, ?_, ?_⟩
  · rw [hw 0]; rfl
  · rw [hw 1]; rfl
  · rw [hw 2]; rfl

end Form3
